import Mathlib

/-!
Shallow embedding of wangle's TLSTicketKeyManager
(src/wangle/ssl/TLSTicketKeyManager.h).

Only the header is part of the repository snapshot, so the data model
(seed/key structures, the manager state, the classification enum) is taken
from the header, while the method bodies that the header declares
(setTLSTicketKeySeeds, encryptCallback, decryptCallback, findEncryptionKey,
findDecryptionKey, makeKeyName, insertNewKey, hashNth, makeUniqueKeys) are
modelled from the specification, as marked on each definition.

Byte strings are lists of naturals.  The hash primitive (SHA-256 in the
real code) is an external collaborator per the spec, so every operation is
parametrised by a hash function H on byte strings; witnesses instantiate H
with a concrete executable function of output length 32.
-/

namespace Wangle

/-- Seed classification (TLSTicketKeyManager.h line 122). -/
inductive TLSTicketSeedType where
  | SEED_OLD
  | SEED_CURRENT
  | SEED_NEW
  deriving DecidableEq, Repr

open TLSTicketSeedType

/-- A seed supplied by the configuration (TLSTicketKeyManager.h lines 125-129). -/
structure TLSTicketSeed where
  seed_ : List Nat
  type_ : TLSTicketSeedType
  seedName_ : List Nat
  deriving DecidableEq, Repr

/-- A derived key source (TLSTicketKeyManager.h lines 131-136). -/
structure TLSTicketKeySource where
  hashCount_ : Nat
  keyName_ : List Nat
  type_ : TLSTicketSeedType
  keySource_ : List Nat
  deriving DecidableEq, Repr

/-- Manager state: seed store, decryption key registry keyed by wire key
name, encryption-eligible key list (TLSTicketKeyManager.h lines 201-205).
The keyed map is an association list looked up by exact name. -/
structure Manager where
  ticketSeeds_ : List TLSTicketSeed
  ticketKeys_ : List (List Nat × TLSTicketKeySource)
  activeKeys_ : List TLSTicketKeySource
  deriving DecidableEq, Repr

/-- Wire key-name field: first 4 bytes name the key (header lines 45-47). -/
def kTLSTicketKeyNameLen : Nat := 4

/-- Per-ticket salt length: 12 random bytes (header line 49). -/
def kTLSTicketKeySaltLen : Nat := 12

/-- Modelled from the spec: the fixed hash-chain depth N, "currently 1",
used by deriveBaseKey and deriveKeyName (header line 44). -/
def hashChainDepthN : Nat := 1

/-- Modelled from the spec: body of hashNth is not under src/.
hashChain(input, n): apply the hash n times, feeding each output back. -/
def hashNth (H : List Nat → List Nat) (input : List Nat) (n : Nat) : List Nat :=
  Nat.iterate H n input

/-- Modelled from the spec: deriveBaseKey(seed) = hashChain(seed.secret, N). -/
def deriveBaseKey (H : List Nat → List Nat) (secret : List Nat) : List Nat :=
  hashNth H secret hashChainDepthN

/-- Modelled from the spec: body of makeKeyName is not under src/.
The name of the nth key generated from a seed is the first 4 bytes of a
second, independent application of the hash chain to the base key
(header lines 45-46: first 4 bytes of hash(hash(seed), N)). -/
def makeKeyName (H : List Nat → List Nat) (secret : List Nat) (n : Nat) : List Nat :=
  (hashNth H (hashNth H secret n) n).take kTLSTicketKeyNameLen

/-- Modelled from the spec: body of makeUniqueKeys is not under src/.
derivePerTicketKey(baseKey, salt) = hash(baseKey concatenated with salt),
split into a cipher key and a MAC key. -/
def makeUniqueKeys (H : List Nat → List Nat) (parentKey salt : List Nat) :
    List Nat × List Nat :=
  ((H (parentKey ++ salt)).take 16, (H (parentKey ++ salt)).drop 16)

/-- Modelled from the spec: insertSeed builds the seed record, computing
nameDigest as the hash of the secret. -/
def insertSeed (H : List Nat → List Nat) (seedInput : List Nat)
    (ty : TLSTicketSeedType) : TLSTicketSeed :=
  { seed_ := seedInput, type_ := ty, seedName_ := H seedInput }

/-- Modelled from the spec: the derived key record created by insertNewKey,
hashCount hashes from the seed, named by makeKeyName. -/
def deriveKey (H : List Nat → List Nat) (seed : TLSTicketSeed)
    (hashCount : Nat) : TLSTicketKeySource :=
  { hashCount_ := hashCount
    keyName_ := makeKeyName H seed.seed_ hashCount
    type_ := seed.type_
    keySource_ := hashNth H seed.seed_ hashCount }

/-- The derived key of one configuration entry (secret, classification),
at the fixed chain depth. -/
def canonicalKey (H : List Nat → List Nat)
    (e : List Nat × TLSTicketSeedType) : TLSTicketKeySource :=
  deriveKey H (insertSeed H e.1 e.2) hashChainDepthN

/-- Keyed insertion into the registry; an existing entry for the name is
kept (the spec reuses the derived key of an equivalent seed). -/
def mapInsert (m : List (List Nat × TLSTicketKeySource)) (k : List Nat)
    (v : TLSTicketKeySource) : List (List Nat × TLSTicketKeySource) :=
  match m.lookup k with
  | some _ => m
  | none => m ++ [(k, v)]

/-- Modelled from the spec: insertNewKey inserts the derived key into the
registry and, for CURRENT and NEW seeds only, into the encryption-eligible
list (OLD keys are decrypt-only). -/
def insertNewKey (H : List Nat → List Nat) (m : Manager) (seed : TLSTicketSeed)
    (hashCount : Nat) : Manager :=
  let key := deriveKey H seed hashCount
  { ticketSeeds_ := m.ticketSeeds_
    ticketKeys_ := mapInsert m.ticketKeys_ key.keyName_ key
    activeKeys_ :=
      if seed.type_ = SEED_OLD then m.activeKeys_ else m.activeKeys_ ++ [key] }

/-- One rebuild step: record the seed in the store and insert its derived
key at the fixed chain depth. -/
def insertOne (H : List Nat → List Nat) (m : Manager)
    (e : List Nat × TLSTicketSeedType) : Manager :=
  let seed := insertSeed H e.1 e.2
  insertNewKey H { m with ticketSeeds_ := m.ticketSeeds_ ++ [seed] } seed
    hashChainDepthN

/-- The configuration flattened in processing order: old seeds, then
current, then new, each tagged with its classification. -/
def seedEntries (oldSeeds currentSeeds newSeeds : List (List Nat)) :
    List (List Nat × TLSTicketSeedType) :=
  oldSeeds.map (fun s => (s, SEED_OLD)) ++
    currentSeeds.map (fun s => (s, SEED_CURRENT)) ++
    newSeeds.map (fun s => (s, SEED_NEW))

/-- Rebuild: insert every configuration entry in order. -/
def insertAll (H : List Nat → List Nat) (m : Manager)
    (entries : List (List Nat × TLSTicketSeedType)) : Manager :=
  entries.foldl (insertOne H) m

/-- A freshly constructed manager: no seeds, no keys. -/
def emptyManager : Manager :=
  { ticketSeeds_ := [], ticketKeys_ := [], activeKeys_ := [] }

/-- Modelled from the spec: body of setTLSTicketKeySeeds is not under src/.
Reject (failure, no mutation) when the current list is empty; otherwise
rebuild the seed store and registry from scratch and swap atomically. -/
def setTLSTicketKeySeeds (H : List Nat → List Nat) (m : Manager)
    (oldSeeds currentSeeds newSeeds : List (List Nat)) : Bool × Manager :=
  if currentSeeds = [] then (false, m)
  else (true, insertAll H emptyManager (seedEntries oldSeeds currentSeeds newSeeds))

/-- The manager produced by a successful rotation from scratch. -/
def buildManager (H : List Nat → List Nat)
    (oldSeeds currentSeeds newSeeds : List (List Nat)) : Manager :=
  (setTLSTicketKeySeeds H emptyManager oldSeeds currentSeeds newSeeds).2

/-- Modelled from the spec: body of findEncryptionKey is not under src/.
selectForEncrypt: prefer CURRENT-classified keys over NEW; among ties take
the first in configuration order; none eligible means no key. -/
def findEncryptionKey (m : Manager) : Option TLSTicketKeySource :=
  match m.activeKeys_.find? (fun k => decide (k.type_ = SEED_CURRENT)) with
  | some k => some k
  | none => m.activeKeys_.head?

/-- Modelled from the spec: body of findDecryptionKey is not under src/.
lookupForDecrypt: exact match of the 4-byte name part of the wire field
against the registry. -/
def findDecryptionKey (m : Manager) (keyName : List Nat) :
    Option TLSTicketKeySource :=
  m.ticketKeys_.lookup (keyName.take kTLSTicketKeyNameLen)

/-- Outcome of one dispatcher call: the protocol status, the wire key-name
field written on encrypt (or echoed on decrypt), and the (cipherKey, macKey)
pair configured into the external cipher/MAC contexts, when any. -/
structure CallResult where
  status : Int
  keyNameField : Option (List Nat)
  keysOut : Option (List Nat × List Nat)
  deriving DecidableEq, Repr

/-- Modelled from the spec: body of encryptCallback is not under src/.
Encrypt path: select a key; if none, refuse with an error status and no
output; otherwise derive the per-ticket keys from the key material and the
fresh salt (an explicit argument, randomness being external), and write the
wire field as name concatenated with salt. -/
def encryptCallback (H : List Nat → List Nat) (m : Manager) (salt : List Nat) :
    CallResult :=
  match findEncryptionKey m with
  | none => { status := -1, keyNameField := none, keysOut := none }
  | some k =>
      { status := 1
        keyNameField := some (k.keyName_ ++ salt)
        keysOut := some (makeUniqueKeys H k.keySource_ salt) }

/-- Modelled from the spec: body of decryptCallback is not under src/.
Decrypt path: split the wire field into name and salt, look the name up in
the registry; unknown names give status 0; otherwise recompute the
per-ticket keys, returning status 2 (renew) for an OLD key and 1 otherwise. -/
def decryptCallback (H : List Nat → List Nat) (m : Manager) (field : List Nat) :
    CallResult :=
  match findDecryptionKey m field with
  | none => { status := 0, keyNameField := none, keysOut := none }
  | some k =>
      { status := if k.type_ = SEED_OLD then 2 else 1
        keyNameField := some field
        keysOut := some (makeUniqueKeys H k.keySource_
          (field.drop kTLSTicketKeyNameLen)) }

/-- Modelled from the spec: ticketCallback routes on the encrypt flag and is
state-free per call, so the manager state is returned unchanged alongside
the call result. -/
def ticketCallback (H : List Nat → List Nat) (m : Manager) (salt field : List Nat)
    (encrypt : Int) : CallResult × Manager :=
  (if encrypt ≠ 0 then encryptCallback H m salt else decryptCallback H m field, m)

/-- A sequence of dispatcher calls, threading the manager state. -/
def runCalls (H : List Nat → List Nat) (m : Manager)
    (calls : List (List Nat × List Nat × Int)) : Manager :=
  calls.foldl (fun acc c => (ticketCallback H acc c.1 c.2.1 c.2.2).2) m

/-- A concrete executable hash with 32-byte output, used to instantiate the
hash parameter in witnesses. -/
def toyHash (x : List Nat) : List Nat :=
  (x.map (fun b => (b + 1) % 256) ++ List.replicate 32 ((x.length + 1) % 256)).take 32

theorem toyHash_length (x : List Nat) : (toyHash x).length = 32 := by
  simp [toyHash]

theorem lookup_append (l1 l2 : List (List Nat × TLSTicketKeySource)) (a : List Nat) :
    (l1 ++ l2).lookup a =
      match l1.lookup a with
      | some v => some v
      | none => l2.lookup a := by
  induction l1 with
  | nil => simp [List.lookup]
  | cons p t ih =>
      cases h : (a == p.1) with
      | true => simp [List.lookup, h]
      | false => simp [List.lookup, h, ih]

/-- After inserting every configuration entry, the registry lookup of a name
is what the accumulator already held, or else the derived key of the first
entry whose key name matches. -/
theorem ticketKeys_insertAll (H : List Nat → List Nat)
    (entries : List (List Nat × TLSTicketSeedType)) (m0 : Manager) (a : List Nat) :
    (insertAll H m0 entries).ticketKeys_.lookup a =
      match m0.ticketKeys_.lookup a with
      | some v => some v
      | none =>
          (entries.find?
            (fun e => decide (makeKeyName H e.1 hashChainDepthN = a))).map
            (canonicalKey H) := by
  induction entries generalizing m0 with
  | nil => cases h : m0.ticketKeys_.lookup a <;> simp [insertAll, List.find?, h]
  | cons e t ih =>
      have hstep : insertAll H m0 (e :: t) = insertAll H (insertOne H m0 e) t := by
        simp [insertAll]
      rw [hstep, ih]
      have htk : (insertOne H m0 e).ticketKeys_ =
          mapInsert m0.ticketKeys_ (makeKeyName H e.1 hashChainDepthN)
            (canonicalKey H e) := by
        simp [insertOne, insertNewKey, canonicalKey, deriveKey, insertSeed]
      rw [htk]
      unfold mapInsert
      cases h0 : m0.ticketKeys_.lookup (makeKeyName H e.1 hashChainDepthN) with
      | some v =>
          simp only [h0]
          cases ha : m0.ticketKeys_.lookup a with
          | some w => simp [ha]
          | none =>
              have hne : ¬ makeKeyName H e.1 hashChainDepthN = a := by
                intro hEq
                rw [hEq, ha] at h0
                exact Option.noConfusion h0
              simp [ha, List.find?, hne]
      | none =>
          simp only [h0]
          rw [lookup_append]
          cases ha : m0.ticketKeys_.lookup a with
          | some w => simp [ha]
          | none =>
              by_cases hEq : makeKeyName H e.1 hashChainDepthN = a
              · subst hEq
                simp [ha, List.lookup, List.find?]
              · have hbeq : (a == makeKeyName H e.1 hashChainDepthN) = false := by
                  simp [beq_iff_eq]
                  intro hc
                  exact hEq hc.symm
                simp [ha, List.lookup, hbeq, List.find?, hEq]

/-- Looking the derived name of a configured secret up in a freshly rebuilt
registry finds a key carrying that secret's base key material, provided no
other configured secret collides on the 4-byte name. -/
theorem registry_lookup_of_mem (H : List Nat → List Nat)
    (oldSeeds curSeeds newSeeds : List (List Nat)) (S : List Nat)
    (ty : TLSTicketSeedType)
    (hmem : (S, ty) ∈ seedEntries oldSeeds curSeeds newSeeds)
    (hinj : ∀ e ∈ seedEntries oldSeeds curSeeds newSeeds,
        makeKeyName H e.1 hashChainDepthN = makeKeyName H S hashChainDepthN →
          e.1 = S) :
    ∃ k, (insertAll H emptyManager
          (seedEntries oldSeeds curSeeds newSeeds)).ticketKeys_.lookup
            (makeKeyName H S hashChainDepthN) = some k ∧
      k.keyName_ = makeKeyName H S hashChainDepthN ∧
      k.keySource_ = hashNth H S hashChainDepthN := by
  have hbase := ticketKeys_insertAll H (seedEntries oldSeeds curSeeds newSeeds)
    emptyManager (makeKeyName H S hashChainDepthN)
  have hempty : emptyManager.ticketKeys_.lookup (makeKeyName H S hashChainDepthN)
      = none := by simp [emptyManager, List.lookup]
  rw [hempty] at hbase
  cases hfind : (seedEntries oldSeeds curSeeds newSeeds).find?
      (fun e => decide (makeKeyName H e.1 hashChainDepthN =
        makeKeyName H S hashChainDepthN)) with
  | none =>
      exfalso
      have hall := List.find?_eq_none.mp hfind (S, ty) hmem
      simp at hall
  | some e0 =>
      have hp := List.find?_some hfind
      have hpe : makeKeyName H e0.1 hashChainDepthN =
          makeKeyName H S hashChainDepthN := by
        simpa using hp
      have hmem0 : e0 ∈ seedEntries oldSeeds curSeeds newSeeds :=
        List.mem_of_find?_eq_some hfind
      have he0 : e0.1 = S := hinj e0 hmem0 hpe
      refine ⟨canonicalKey H e0, ?_, ?_, ?_⟩
      · rw [hbase, hfind]
        rfl
      · simp [canonicalKey, deriveKey, insertSeed, he0]
      · simp [canonicalKey, deriveKey, insertSeed, he0]

/-- After inserting every configuration entry, the encryption-eligible list
is the accumulator's list followed by the derived keys of the non-OLD
entries, in configuration order. -/
theorem activeKeys_insertAll (H : List Nat → List Nat)
    (entries : List (List Nat × TLSTicketSeedType)) (m0 : Manager) :
    (insertAll H m0 entries).activeKeys_ =
      m0.activeKeys_ ++
        (entries.filter (fun e => decide (¬ e.2 = SEED_OLD))).map
          (canonicalKey H) := by
  induction entries generalizing m0 with
  | nil => simp [insertAll]
  | cons e t ih =>
      have hstep : insertAll H m0 (e :: t) = insertAll H (insertOne H m0 e) t := by
        simp [insertAll]
      rw [hstep, ih]
      by_cases hOld : e.2 = SEED_OLD
      · have hak : (insertOne H m0 e).activeKeys_ = m0.activeKeys_ := by
          simp [insertOne, insertNewKey, insertSeed, hOld]
        rw [hak]
        simp [List.filter, hOld]
      · have hak : (insertOne H m0 e).activeKeys_ =
            m0.activeKeys_ ++ [canonicalKey H e] := by
          simp [insertOne, insertNewKey, insertSeed, canonicalKey, deriveKey, hOld]
        rw [hak]
        simp [List.filter, hOld]

theorem runCalls_id (H : List Nat → List Nat) (m : Manager)
    (calls : List (List Nat × List Nat × Int)) : runCalls H m calls = m := by
  induction calls generalizing m with
  | nil => rfl
  | cons c t ih => exact ih m

theorem take_keyNameLen_append (nm rest : List Nat)
    (h : nm.length = kTLSTicketKeyNameLen) :
    (nm ++ rest).take kTLSTicketKeyNameLen = nm := by
  rw [List.take_append_eq_append_take, h]
  simp [List.take_of_length_le (le_of_eq h)]

theorem drop_keyNameLen_append (nm rest : List Nat)
    (h : nm.length = kTLSTicketKeyNameLen) :
    (nm ++ rest).drop kTLSTicketKeyNameLen = rest := by
  rw [← h, List.drop_left]

theorem makeKeyName_length (H : List Nat → List Nat)
    (hlen : ∀ x, (H x).length = 32) (s : List Nat) :
    (makeKeyName H s hashChainDepthN).length = kTLSTicketKeyNameLen := by
  simp [makeKeyName, hashNth, hashChainDepthN, Nat.iterate, kTLSTicketKeyNameLen,
    hlen]

/-- C1: per-ticket key derivation is deterministic given (baseKey, salt):
a ticket encrypted by a manager whose selected key was derived from seed S,
with salt R, decrypts successfully (status 1 or 2, the renew variant) on
any manager rebuilt from a configuration containing S under any
classification (names not colliding), reproducing exactly the same
(cipherKey, macKey) pair the encryption used. -/
theorem ticket_round_trip (H : List Nat → List Nat)
    (hlen : ∀ x, (H x).length = 32)
    (S R : List Nat) (mA : Manager) (k : TLSTicketKeySource)
    (hk : findEncryptionKey mA = some k)
    (hsrc : k.keySource_ = hashNth H S hashChainDepthN)
    (hname : k.keyName_ = makeKeyName H S hashChainDepthN)
    (oldSeeds curSeeds newSeeds : List (List Nat)) (ty : TLSTicketSeedType)
    (hmem : (S, ty) ∈ seedEntries oldSeeds curSeeds newSeeds)
    (hcur : curSeeds ≠ [])
    (hinj : ∀ e ∈ seedEntries oldSeeds curSeeds newSeeds,
        makeKeyName H e.1 hashChainDepthN = makeKeyName H S hashChainDepthN →
          e.1 = S) :
    (encryptCallback H mA R).status = 1 ∧
    (encryptCallback H mA R).keysOut =
      some (makeUniqueKeys H (hashNth H S hashChainDepthN) R) ∧
    ((decryptCallback H (buildManager H oldSeeds curSeeds newSeeds)
        ((encryptCallback H mA R).keyNameField.getD [])).status = 1 ∨
      (decryptCallback H (buildManager H oldSeeds curSeeds newSeeds)
        ((encryptCallback H mA R).keyNameField.getD [])).status = 2) ∧
    (decryptCallback H (buildManager H oldSeeds curSeeds newSeeds)
        ((encryptCallback H mA R).keyNameField.getD [])).keysOut =
      (encryptCallback H mA R).keysOut := by
  have henc : encryptCallback H mA R =
      { status := 1
        keyNameField := some (makeKeyName H S hashChainDepthN ++ R)
        keysOut := some (makeUniqueKeys H (hashNth H S hashChainDepthN) R) } := by
    simp [encryptCallback, hk, hname, hsrc]
  have hbuild : buildManager H oldSeeds curSeeds newSeeds =
      insertAll H emptyManager (seedEntries oldSeeds curSeeds newSeeds) := by
    simp [buildManager, setTLSTicketKeySeeds, hcur]
  obtain ⟨k2, hlook, hkn2, hks2⟩ :=
    registry_lookup_of_mem H oldSeeds curSeeds newSeeds S ty hmem hinj
  have hfindDec : findDecryptionKey (buildManager H oldSeeds curSeeds newSeeds)
      (makeKeyName H S hashChainDepthN ++ R) = some k2 := by
    unfold findDecryptionKey
    rw [hbuild,
      take_keyNameLen_append _ _ (makeKeyName_length H hlen S), hlook]
  have hdec : decryptCallback H (buildManager H oldSeeds curSeeds newSeeds)
      (makeKeyName H S hashChainDepthN ++ R) =
      { status := if k2.type_ = SEED_OLD then 2 else 1
        keyNameField := some (makeKeyName H S hashChainDepthN ++ R)
        keysOut := some (makeUniqueKeys H (hashNth H S hashChainDepthN) R) } := by
    simp [decryptCallback, hfindDec, hks2,
      drop_keyNameLen_append (makeKeyName H S hashChainDepthN) R
        (makeKeyName_length H hlen S)]
  rw [henc]
  simp only [Option.getD_some]
  rw [hdec]
  by_cases hOld : k2.type_ = SEED_OLD <;> simp [hOld]

/-- C2: a rotation call with an empty current list returns failure and
leaves the installed seed store, key registry and active-key list exactly
as they were (including an uninitialized manager). -/
theorem setSeeds_empty_current_rejects (H : List Nat → List Nat) (m : Manager)
    (oldSeeds newSeeds : List (List Nat)) :
    setTLSTicketKeySeeds H m oldSeeds [] newSeeds = (false, m) := by
  simp [setTLSTicketKeySeeds]

/-- C3: when the wire key name resolves to an installed derived key k, the
decrypt path returns status 1 for a CURRENT- or NEW-classified k, and
status 2 (success-but-renew) exactly when k is OLD-classified. -/
theorem decrypt_status_rotation (H : List Nat → List Nat) (m : Manager)
    (field : List Nat) (k : TLSTicketKeySource)
    (h : findDecryptionKey m field = some k) :
    ((k.type_ = SEED_CURRENT ∨ k.type_ = SEED_NEW) →
        (decryptCallback H m field).status = 1) ∧
    ((decryptCallback H m field).status = 2 ↔ k.type_ = SEED_OLD) := by
  unfold decryptCallback
  rw [h]
  cases htype : k.type_ <;> simp [htype]

/-- C4: a decrypt-mode call whose wire key-name part matches no key in
the registry returns status 0 (key unknown), configures no keys, and the
manager state is unchanged, so subsequent calls behave as before. -/
theorem decrypt_unknown_key_not_fatal (H : List Nat → List Nat) (m : Manager)
    (field salt field2 : List Nat) (e : Int)
    (h : findDecryptionKey m field = none) :
    (decryptCallback H m field).status = 0 ∧
    (decryptCallback H m field).keysOut = none ∧
    (ticketCallback H m salt field2 e).2 = m := by
  unfold decryptCallback
  rw [h]
  exact ⟨rfl, rfl, rfl⟩

/-- C5: with the fixed chain depth N = 1, the base key of a seed equals
hashChain(secret, N), and the derived key's wire name is the 4-byte
prefix of a second independent chain applied to the base key, i.e. the
first 4 bytes of hash(hash(secret)). -/
theorem key_name_derivation (H : List Nat → List Nat) (s : List Nat)
    (ty : TLSTicketSeedType) :
    hashChainDepthN = 1 ∧
    (canonicalKey H (s, ty)).keySource_ = deriveBaseKey H s ∧
    deriveBaseKey H s = hashNth H s 1 ∧
    hashNth H s 1 = H s ∧
    (canonicalKey H (s, ty)).keyName_ =
      (hashNth H (deriveBaseKey H s) hashChainDepthN).take kTLSTicketKeyNameLen ∧
    (canonicalKey H (s, ty)).keyName_ = (H (H s)).take 4 :=
  ⟨rfl, rfl, rfl, rfl, rfl, rfl⟩

/-- C6: when the encryption-eligible list is empty (empty registry or a
never-initialized manager), every encrypt-mode dispatcher call returns the
error status -1 and produces neither a wire key-name field nor any ticket
key material. -/
theorem encrypt_refuses_without_key (H : List Nat → List Nat) (m : Manager)
    (salt field : List Nat) (e : Int)
    (h : m.activeKeys_ = []) (he : e ≠ 0) :
    encryptCallback H m salt =
      { status := -1, keyNameField := none, keysOut := none } ∧
    (ticketCallback H m salt field e).1 =
      { status := -1, keyNameField := none, keysOut := none } := by
  have henc : encryptCallback H m salt =
      { status := -1, keyNameField := none, keysOut := none } := by
    unfold encryptCallback findEncryptionKey
    rw [h]
    rfl
  exact ⟨henc, by simp [ticketCallback, he, henc]⟩

/-- C7: encryption key selection is a deterministic function of the
installed configuration: after a successful rotation the selected key is
CURRENT-classified, namely the key derived from the first current seed in
configuration order, whatever the old and new lists hold. -/
theorem findEncryptionKey_policy (H : List Nat → List Nat)
    (oldSeeds newSeeds : List (List Nat)) (c : List Nat)
    (rest : List (List Nat)) :
    findEncryptionKey (buildManager H oldSeeds (c :: rest) newSeeds) =
      some (canonicalKey H (c, SEED_CURRENT)) ∧
    (canonicalKey H (c, SEED_CURRENT)).type_ = SEED_CURRENT := by
  have hold : ∀ l : List (List Nat),
      (l.map (fun s => (s, SEED_OLD))).filter
        (fun e => decide (¬ e.2 = SEED_OLD)) = [] := by
    intro l
    induction l with
    | nil => rfl
    | cons a t ih => simp [List.filter, ih]
  have hbuild : buildManager H oldSeeds (c :: rest) newSeeds =
      insertAll H emptyManager (seedEntries oldSeeds (c :: rest) newSeeds) := by
    simp [buildManager, setTLSTicketKeySeeds]
  have hactive : (buildManager H oldSeeds (c :: rest) newSeeds).activeKeys_ =
      canonicalKey H (c, SEED_CURRENT) ::
        ((rest.map (fun s => (s, SEED_CURRENT)) ++
          newSeeds.map (fun s => (s, SEED_NEW))).filter
            (fun e => decide (¬ e.2 = SEED_OLD))).map (canonicalKey H) := by
    rw [hbuild, activeKeys_insertAll]
    simp [emptyManager, seedEntries, List.filter_append, hold oldSeeds,
      List.filter]
  unfold findEncryptionKey
  rw [hactive]
  rw [List.find?_cons_of_pos]
  · exact ⟨rfl, rfl⟩
  · simp [canonicalKey, deriveKey, insertSeed]

/-- C8: fleet-wide determinism: two independently rebuilt managers whose
configurations both contain seed S under the same classification derive,
at S's wire name, keys with identical name and identical key material,
with no dependence on the rest of either configuration. -/
theorem fleet_determinism (H : List Nat → List Nat)
    (o1 c1 n1 o2 c2 n2 : List (List Nat)) (S : List Nat)
    (ty : TLSTicketSeedType)
    (h1 : (S, ty) ∈ seedEntries o1 c1 n1)
    (h2 : (S, ty) ∈ seedEntries o2 c2 n2)
    (hc1 : c1 ≠ []) (hc2 : c2 ≠ [])
    (hinj1 : ∀ e ∈ seedEntries o1 c1 n1,
        makeKeyName H e.1 hashChainDepthN = makeKeyName H S hashChainDepthN →
          e.1 = S)
    (hinj2 : ∀ e ∈ seedEntries o2 c2 n2,
        makeKeyName H e.1 hashChainDepthN = makeKeyName H S hashChainDepthN →
          e.1 = S) :
    ∃ k1 k2,
      (buildManager H o1 c1 n1).ticketKeys_.lookup
          (makeKeyName H S hashChainDepthN) = some k1 ∧
      (buildManager H o2 c2 n2).ticketKeys_.lookup
          (makeKeyName H S hashChainDepthN) = some k2 ∧
      k1.keyName_ = k2.keyName_ ∧ k1.keySource_ = k2.keySource_ ∧
      k1.keySource_ = hashNth H S hashChainDepthN := by
  have hb1 : buildManager H o1 c1 n1 =
      insertAll H emptyManager (seedEntries o1 c1 n1) := by
    simp [buildManager, setTLSTicketKeySeeds, hc1]
  have hb2 : buildManager H o2 c2 n2 =
      insertAll H emptyManager (seedEntries o2 c2 n2) := by
    simp [buildManager, setTLSTicketKeySeeds, hc2]
  obtain ⟨k1, hl1, hn1, hs1⟩ := registry_lookup_of_mem H o1 c1 n1 S ty h1 hinj1
  obtain ⟨k2, hl2, hn2, hs2⟩ := registry_lookup_of_mem H o2 c2 n2 S ty h2 hinj2
  exact ⟨k1, k2, by rw [hb1]; exact hl1, by rw [hb2]; exact hl2,
    hn1.trans hn2.symm, hs1.trans hs2.symm, hs1⟩

/-- C9: the ticket dispatcher is state-free per call: one call, and any
sequence of calls, in either mode and with any outcome, leaves the seed
store, key registry and active-key list identical. -/
theorem ticketCallback_state_free (H : List Nat → List Nat) (m : Manager)
    (salt field : List Nat) (e : Int)
    (calls : List (List Nat × List Nat × Int)) :
    (ticketCallback H m salt field e).2 = m ∧ runCalls H m calls = m :=
  ⟨rfl, runCalls_id H m calls⟩

/-- C10: keys never expire by time or use: the decrypt result for a wire
key name is invariant under any number of prior dispatcher calls and
depends only on the installed key registry. -/
theorem decrypt_depends_only_on_registry (H : List Nat → List Nat)
    (m m2 : Manager) (calls : List (List Nat × List Nat × Int))
    (field : List Nat) (hkeys : m2.ticketKeys_ = m.ticketKeys_) :
    decryptCallback H (runCalls H m calls) field = decryptCallback H m field ∧
    decryptCallback H m2 field = decryptCallback H m field := by
  constructor
  · rw [runCalls_id]
  · unfold decryptCallback findDecryptionKey
    rw [hkeys]

/-- Witness for C1: the cross-manager scenario of spec section 8, with the
concrete hash: manager A has current seed [1]; manager B has [1] rotated to
old and [2] current; A's ticket decrypts on B with the same key pair. -/
theorem ticket_round_trip_witness :
    (encryptCallback toyHash (buildManager toyHash [] [[1]] []) [5, 6, 7]).status
        = 1 ∧
    (encryptCallback toyHash (buildManager toyHash [] [[1]] []) [5, 6, 7]).keysOut
        = some (makeUniqueKeys toyHash (hashNth toyHash [1] hashChainDepthN)
            [5, 6, 7]) ∧
    ((decryptCallback toyHash (buildManager toyHash [[1]] [[2]] [])
        ((encryptCallback toyHash (buildManager toyHash [] [[1]] [])
          [5, 6, 7]).keyNameField.getD [])).status = 1 ∨
      (decryptCallback toyHash (buildManager toyHash [[1]] [[2]] [])
        ((encryptCallback toyHash (buildManager toyHash [] [[1]] [])
          [5, 6, 7]).keyNameField.getD [])).status = 2) ∧
    (decryptCallback toyHash (buildManager toyHash [[1]] [[2]] [])
        ((encryptCallback toyHash (buildManager toyHash [] [[1]] [])
          [5, 6, 7]).keyNameField.getD [])).keysOut =
      (encryptCallback toyHash (buildManager toyHash [] [[1]] [])
        [5, 6, 7]).keysOut :=
  ticket_round_trip toyHash toyHash_length [1] [5, 6, 7]
    (buildManager toyHash [] [[1]] [])
    (canonicalKey toyHash ([1], TLSTicketSeedType.SEED_CURRENT))
    (by decide) (by decide) (by decide)
    [[1]] [[2]] [] TLSTicketSeedType.SEED_OLD (by decide) (by decide) (by decide)

/-- Witness for C3: a key installed as CURRENT yields status 1, and the
renew status 2 holds exactly for OLD classification. -/
theorem decrypt_status_rotation_witness :
    (((canonicalKey toyHash ([0], TLSTicketSeedType.SEED_CURRENT)).type_ =
          TLSTicketSeedType.SEED_CURRENT ∨
        (canonicalKey toyHash ([0], TLSTicketSeedType.SEED_CURRENT)).type_ =
          TLSTicketSeedType.SEED_NEW) →
      (decryptCallback toyHash (buildManager toyHash [] [[0]] [])
        (makeKeyName toyHash [0] hashChainDepthN ++
          List.replicate 12 9)).status = 1) ∧
    ((decryptCallback toyHash (buildManager toyHash [] [[0]] [])
        (makeKeyName toyHash [0] hashChainDepthN ++
          List.replicate 12 9)).status = 2 ↔
      (canonicalKey toyHash ([0], TLSTicketSeedType.SEED_CURRENT)).type_ =
        TLSTicketSeedType.SEED_OLD) :=
  decrypt_status_rotation toyHash (buildManager toyHash [] [[0]] [])
    (makeKeyName toyHash [0] hashChainDepthN ++ List.replicate 12 9)
    (canonicalKey toyHash ([0], TLSTicketSeedType.SEED_CURRENT)) (by decide)

/-- Witness for C4: an uninitialized manager answers an unknown ticket
name with status 0, no key output, and unchanged state. -/
theorem decrypt_unknown_key_not_fatal_witness :
    (decryptCallback toyHash emptyManager [1, 2, 3, 4]).status = 0 ∧
    (decryptCallback toyHash emptyManager [1, 2, 3, 4]).keysOut = none ∧
    (ticketCallback toyHash emptyManager [] [1, 2, 3, 4] 0).2 = emptyManager :=
  decrypt_unknown_key_not_fatal toyHash emptyManager [1, 2, 3, 4] []
    [1, 2, 3, 4] 0 (by decide)

/-- Witness for C6: with no active keys, an encrypt call returns the error
status and produces nothing. -/
theorem encrypt_refuses_without_key_witness :
    encryptCallback toyHash emptyManager [] =
      { status := -1, keyNameField := none, keysOut := none } ∧
    (ticketCallback toyHash emptyManager [] [] 1).1 =
      { status := -1, keyNameField := none, keysOut := none } :=
  encrypt_refuses_without_key toyHash emptyManager [] [] 1 (by decide) (by decide)

/-- Witness for C8: two managers with different configurations sharing the
current seed [3] agree on its derived key name and material. -/
theorem fleet_determinism_witness :
    ∃ k1 k2,
      (buildManager toyHash [] [[3]] []).ticketKeys_.lookup
          (makeKeyName toyHash [3] hashChainDepthN) = some k1 ∧
      (buildManager toyHash [] [[3], [4]] []).ticketKeys_.lookup
          (makeKeyName toyHash [3] hashChainDepthN) = some k2 ∧
      k1.keyName_ = k2.keyName_ ∧ k1.keySource_ = k2.keySource_ ∧
      k1.keySource_ = hashNth toyHash [3] hashChainDepthN :=
  fleet_determinism toyHash [] [[3]] [] [] [[3], [4]] [] [3]
    TLSTicketSeedType.SEED_CURRENT
    (by decide) (by decide) (by decide) (by decide) (by decide) (by decide)

/-- Witness for C10: the decrypt outcome is unchanged after a dispatcher
call and coincides on any manager with the same registry. -/
theorem decrypt_depends_only_on_registry_witness :
    decryptCallback toyHash (runCalls toyHash emptyManager [([], [], 0)])
        [1, 2, 3, 4] = decryptCallback toyHash emptyManager [1, 2, 3, 4] ∧
    decryptCallback toyHash emptyManager [1, 2, 3, 4] =
      decryptCallback toyHash emptyManager [1, 2, 3, 4] :=
  decrypt_depends_only_on_registry toyHash emptyManager emptyManager
    [([], [], 0)] [1, 2, 3, 4] (by decide)

end Wangle
